import Mathlib

/-!
Verification of the home-loan prepayment calculator
(`streamlit_app.py`) against its specification.

The source program is a month-by-month financial simulation:

* `calculate_emi` computes a fixed monthly installment from principal,
  annual rate and tenure;
* `simulate_loan_mf_scenario` runs one full tenure simulation for a
  given prepayment month, producing final house value, final mutual-fund
  value and the month the loan was fully closed (if any);
* `main` sweeps the prepayment month over `0..tenure_months` and collects
  one record per swept month.

The embedding below is over an arbitrary `LinearOrderedField` for all of
the exact arithmetic in the loop (instantiated at `ℚ` for executable
witnesses and at `ℝ` for the top-level program, whose monthly growth
rates use the real 12-th root `(1 + g) ^ (1/12)`).  Python's
`ZeroDivisionError` is modelled by `Except`-valued variants of the
division and power operators.
-/

namespace HomeLoan

/-- State of one scenario simulation: the mutable variables
`current_principal`, `current_house_value`, `current_mf_value` and
`loan_closed_month` of `simulate_loan_mf_scenario`. -/
structure SimState (K : Type*) where
  principal : K
  house : K
  mf : K
  closedMonth : Option ℕ
  deriving DecidableEq

/-- EMI formula, from `calculate_emi` (source lines 15–20), with Lean's
total-division convention (the fallible version is `calculate_emiE`). -/
def calculate_emi {K : Type*} [LinearOrderedField K]
    (principal annual_interest_rate : K) (tenure_months : ℕ) : K :=
  let monthly_interest_rate := annual_interest_rate / 100 / 12
  if monthly_interest_rate = 0 then principal / (tenure_months : K)
  else principal * monthly_interest_rate /
    (1 - (1 + monthly_interest_rate) ^ (-(tenure_months : ℤ)))

/-- One month of amortization with the clamp to zero, from source
lines 52–56. -/
def amortize {K : Type*} [LinearOrderedField K]
    (annual_loan_rate emi p : K) : K :=
  let monthly_interest := p * (annual_loan_rate / 100 / 12)
  let monthly_principal_part := emi - monthly_interest
  let p' := p - monthly_principal_part
  if p' < 0 then 0 else p'

/-- The lumpsum prepayment applied to the pair (fund value, principal),
from source lines 59–63: withdraw `min fund principal` from the fund,
subtract the same amount from the principal, clamp the principal to 0. -/
def applyLumpsum {K : Type*} [LinearOrderedField K] (mf p : K) : K × K :=
  let lumpsum := min mf p
  let mf' := mf - lumpsum
  let p' := p - lumpsum
  (mf', if p' < 0 then 0 else p')

/-- Monthly fund contribution, from source lines 46–49: the configured
monthly addition while the loan is open, `emi + addition` once closed. -/
def contribute {K : Type*} [LinearOrderedField K]
    (emi mf_monthly_addition : K) (closedMonth : Option ℕ) (mf : K) : K :=
  match closedMonth with
  | none => mf + mf_monthly_addition
  | some _ => mf + (emi + mf_monthly_addition)

/-- One iteration of the loop body of `simulate_loan_mf_scenario`
(source lines 44–68): house growth, fund contribution, amortization,
optional lumpsum prepayment, loan-closed check, fund growth. -/
def simStep {K : Type*} [LinearOrderedField K]
    (annual_loan_rate emi mf_monthly_addition monthly_house_rate
      monthly_mf_rate : K) (prepay_month : ℕ)
    (s : SimState K) (month : ℕ) : SimState K :=
  let house := s.house * (1 + monthly_house_rate)
  let mf₁ := contribute emi mf_monthly_addition s.closedMonth s.mf
  match s.closedMonth with
  | some c =>
    { principal := s.principal, house := house,
      mf := mf₁ * (1 + monthly_mf_rate), closedMonth := some c }
  | none =>
    let p₁ := amortize annual_loan_rate emi s.principal
    let mp := if month = prepay_month ∧ 0 < p₁
      then applyLumpsum mf₁ p₁ else (mf₁, p₁)
    let closed : Option ℕ := if mp.2 ≤ 0 then some month else none
    { principal := mp.2, house := house,
      mf := mp.1 * (1 + monthly_mf_rate), closedMonth := closed }

/-- The loop `for month in range(1, tenure_months + 1)` of
`simulate_loan_mf_scenario` (source lines 43–68). -/
def runLoop {K : Type*} [LinearOrderedField K]
    (annual_loan_rate emi mf_monthly_addition monthly_house_rate
      monthly_mf_rate : K) (prepay_month tenure_months : ℕ)
    (init : SimState K) : SimState K :=
  (List.range' 1 tenure_months).foldl
    (simStep annual_loan_rate emi mf_monthly_addition monthly_house_rate
      monthly_mf_rate prepay_month) init

/-- Full scenario simulation, from `simulate_loan_mf_scenario`
(source lines 22–70), over `ℝ` since the monthly growth rates use the
real power `(1 + g) ^ (1/12)`. -/
noncomputable def simulate_loan_mf_scenario
    (loan_principal annual_loan_rate : ℝ) (tenure_months : ℕ)
    (house_value house_annual_growth mf_initial_investment
      mf_monthly_addition mf_annual_growth : ℝ)
    (prepay_month : ℕ) : ℝ × ℝ × Option ℕ :=
  let monthly_house_rate := (1 + house_annual_growth) ^ ((1 : ℝ) / 12) - 1
  let monthly_mf_rate := (1 + mf_annual_growth) ^ ((1 : ℝ) / 12) - 1
  let emi := calculate_emi loan_principal annual_loan_rate tenure_months
  let final := runLoop annual_loan_rate emi mf_monthly_addition
    monthly_house_rate monthly_mf_rate prepay_month tenure_months
    { principal := loan_principal, house := house_value,
      mf := mf_initial_investment, closedMonth := none }
  (final.house, final.mf, final.closedMonth)

/-- Errors a run can surface.  `zeroDivision` models Python's
`ZeroDivisionError`, the only error the source can actually raise.
`invalidInput` is modelled from the spec's error taxonomy (`InvalidInput`);
no code in the source ever constructs it. -/
inductive PyError where
  | zeroDivision
  | invalidInput
  deriving DecidableEq

/-- Division as Python performs it: raises `ZeroDivisionError` on a zero
denominator. -/
def pydiv {K : Type*} [LinearOrderedField K] (a b : K) : Except PyError K :=
  if b = 0 then .error .zeroDivision else .ok (a / b)

/-- Integer power as Python performs it: `0 ** n` with `n < 0` raises
`ZeroDivisionError`. -/
def pyzpow {K : Type*} [LinearOrderedField K] (a : K) (n : ℤ) :
    Except PyError K :=
  if a = 0 ∧ n < 0 then .error .zeroDivision else .ok (a ^ n)

/-- Fallible EMI computation, from `calculate_emi` (source lines 15–20)
with Python's division and power semantics made explicit. -/
def calculate_emiE {K : Type*} [LinearOrderedField K]
    (principal annual_interest_rate : K) (tenure_months : ℕ) :
    Except PyError K :=
  let monthly_interest_rate := annual_interest_rate / 100 / 12
  if monthly_interest_rate = 0 then pydiv principal (tenure_months : K)
  else do
    let pw ← pyzpow (1 + monthly_interest_rate) (-(tenure_months : ℤ))
    pydiv (principal * monthly_interest_rate) (1 - pw)

/-- Fallible scenario simulation: `simulate_loan_mf_scenario` with the
possible `ZeroDivisionError` of its EMI computation made explicit. -/
noncomputable def simulate_loan_mf_scenarioE
    (loan_principal annual_loan_rate : ℝ) (tenure_months : ℕ)
    (house_value house_annual_growth mf_initial_investment
      mf_monthly_addition mf_annual_growth : ℝ)
    (prepay_month : ℕ) : Except PyError (ℝ × ℝ × Option ℕ) := do
  let monthly_house_rate := (1 + house_annual_growth) ^ ((1 : ℝ) / 12) - 1
  let monthly_mf_rate := (1 + mf_annual_growth) ^ ((1 : ℝ) / 12) - 1
  let emi ← calculate_emiE loan_principal annual_loan_rate tenure_months
  let final := runLoop annual_loan_rate emi mf_monthly_addition
    monthly_house_rate monthly_mf_rate prepay_month tenure_months
    { principal := loan_principal, house := house_value,
      mf := mf_initial_investment, closedMonth := none }
  return (final.house, final.mf, final.closedMonth)

/-- Values the presentation records of `main` hold: Python ints and
floats.  The constructor `optNat` models a nullable month value (what
`loan_closed_month` would be if it were stored in a record); the source's
records never contain one, which is exactly what claim C1 is about. -/
inductive PyVal (K : Type*) where
  | int : ℕ → PyVal K
  | num : K → PyVal K
  | optNat : Option ℕ → PyVal K
  deriving DecidableEq

/-- One row appended to `results` by `main` (source lines 117–122),
modelled as an association list mirroring the Python dict literal. -/
def resultRecord {K : Type*} [Add K] (prepay_month : ℕ) (final_house final_mf : K) :
    List (String × PyVal K) :=
  [("PrepayMonth", PyVal.int prepay_month),
   ("HouseValue", PyVal.num final_house),
   ("MFValue", PyVal.num final_mf),
   ("NetWorth", PyVal.num (final_house + final_mf))]

/-- The sweep of `main` (source lines 81–122): scale the slider inputs,
run one simulation per prepayment month `0..tenure_months`, and collect
one record per month.  Note the tuple component `closed_mth` returned by
the simulator is not stored in the record. -/
noncomputable def main_results
    (loan_principal_lakhs annual_interest_rate_loan : ℝ) (tenure_years : ℕ)
    (house_value_cr house_annual_growth mf_initial_investment_lakhs
      mf_monthly_addition_lakhs mf_annual_growth : ℝ) :
    List (List (String × PyVal ℝ)) :=
  let tenure_months := tenure_years * 12
  let loan_principal := loan_principal_lakhs * 100000
  let house_value := house_value_cr * 10000000
  let mf_initial_investment := mf_initial_investment_lakhs * 100000
  let mf_monthly_addition := mf_monthly_addition_lakhs * 100000
  let house_annual_growth_decimal := house_annual_growth / 100
  let mf_annual_growth_decimal := mf_annual_growth / 100
  (List.range (tenure_months + 1)).map fun prepay_month =>
    let r := simulate_loan_mf_scenario loan_principal
      annual_interest_rate_loan tenure_months house_value
      house_annual_growth_decimal mf_initial_investment
      mf_monthly_addition mf_annual_growth_decimal prepay_month
    resultRecord prepay_month r.1 r.2.1

/-- Comparison definition for claim C7: `simStep` with the lumpsum
prepayment branch (source lines 58–63) deleted.  A step that provably
coincides with this one applies no lumpsum withdrawal to the fund. -/
def simStepNoLumpsum {K : Type*} [LinearOrderedField K]
    (annual_loan_rate emi mf_monthly_addition monthly_house_rate
      monthly_mf_rate : K) (s : SimState K) (month : ℕ) : SimState K :=
  let house := s.house * (1 + monthly_house_rate)
  let mf₁ := contribute emi mf_monthly_addition s.closedMonth s.mf
  match s.closedMonth with
  | some c =>
    { principal := s.principal, house := house,
      mf := mf₁ * (1 + monthly_mf_rate), closedMonth := some c }
  | none =>
    let p₁ := amortize annual_loan_rate emi s.principal
    let closed : Option ℕ := if p₁ ≤ 0 then some month else none
    { principal := p₁, house := house,
      mf := mf₁ * (1 + monthly_mf_rate), closedMonth := closed }

/-- Exact amortization sequence of the claimed EMI contract: start at the
principal and, each month, add interest `p * (rate/100/12)` and subtract
the EMI (the arithmetic of source lines 52–54, without the clamp). -/
def amortSeq {K : Type*} [LinearOrderedField K]
    (annual_loan_rate emi p : K) : ℕ → K
  | 0 => p
  | k + 1 =>
    let q := amortSeq annual_loan_rate emi p k
    q - (emi - q * (annual_loan_rate / 100 / 12))

section Lemmas

variable {K : Type*} [LinearOrderedField K]

theorem runLoop_zero (r emi add mhr mfr : K) (pm : ℕ) (init : SimState K) :
    runLoop r emi add mhr mfr pm 0 init = init := rfl

theorem runLoop_succ (r emi add mhr mfr : K) (pm n : ℕ) (init : SimState K) :
    runLoop r emi add mhr mfr pm (n + 1) init =
      simStep r emi add mhr mfr pm (runLoop r emi add mhr mfr pm n init)
        (n + 1) := by
  unfold runLoop
  rw [List.range'_concat, List.foldl_append, List.foldl_cons, List.foldl_nil,
    Nat.one_mul, Nat.add_comm 1 n]

theorem simStep_closed (r emi add mhr mfr : K) (pm m : ℕ) {s : SimState K}
    {c : ℕ} (hc : s.closedMonth = some c) :
    simStep r emi add mhr mfr pm s m =
      { principal := s.principal, house := s.house * (1 + mhr),
        mf := (s.mf + (emi + add)) * (1 + mfr), closedMonth := some c } := by
  simp [simStep, contribute, hc]

theorem simStep_open (r emi add mhr mfr : K) (pm m : ℕ) {s : SimState K}
    (hc : s.closedMonth = none) :
    simStep r emi add mhr mfr pm s m =
      (let p₁ := amortize r emi s.principal
       let mp := if m = pm ∧ 0 < p₁ then applyLumpsum (s.mf + add) p₁
         else (s.mf + add, p₁)
       { principal := mp.2, house := s.house * (1 + mhr),
         mf := mp.1 * (1 + mfr),
         closedMonth := if mp.2 ≤ 0 then some m else none }) := by
  simp [simStep, contribute, hc]

theorem simStep_house (r emi add mhr mfr : K) (pm m : ℕ) (s : SimState K) :
    (simStep r emi add mhr mfr pm s m).house = s.house * (1 + mhr) := by
  rcases hc : s.closedMonth with _ | c
  · rw [simStep_open r emi add mhr mfr pm m hc]
  · rw [simStep_closed r emi add mhr mfr pm m hc]

theorem amortize_nonneg (r emi p : K) : 0 ≤ amortize r emi p := by
  unfold amortize
  dsimp only
  split
  · exact le_refl 0
  · next h => exact not_lt.mp h

theorem applyLumpsum_snd_nonneg (f p : K) : 0 ≤ (applyLumpsum f p).2 := by
  unfold applyLumpsum
  dsimp only
  split
  · exact le_refl 0
  · next h => exact not_lt.mp h

theorem amortize_amortSeq (r emi p : K) (k : ℕ)
    (h : 0 ≤ amortSeq r emi p (k + 1)) :
    amortize r emi (amortSeq r emi p k) = amortSeq r emi p (k + 1) := by
  have hs : amortSeq r emi p (k + 1) =
      amortSeq r emi p k -
        (emi - amortSeq r emi p k * (r / 100 / 12)) := rfl
  unfold amortize
  dsimp only
  rw [← hs, if_neg (not_lt.mpr h)]

theorem simStep_open_closedMonth (r emi add mhr mfr : K) (pm m : ℕ)
    {s : SimState K} (hc : s.closedMonth = none) :
    (simStep r emi add mhr mfr pm s m).closedMonth =
      if (simStep r emi add mhr mfr pm s m).principal ≤ 0
      then some m else none := by
  rw [simStep_open r emi add mhr mfr pm m hc]

theorem runLoop_closed_persist (r emi add mhr mfr : K) (pm : ℕ)
    (init : SimState K) (n k c : ℕ) (hkn : k ≤ n)
    (h : (runLoop r emi add mhr mfr pm k init).closedMonth = some c) :
    (runLoop r emi add mhr mfr pm n init).closedMonth = some c ∧
    (runLoop r emi add mhr mfr pm n init).principal =
      (runLoop r emi add mhr mfr pm k init).principal := by
  induction n with
  | zero =>
    obtain rfl : k = 0 := Nat.le_zero.mp hkn
    exact ⟨h, rfl⟩
  | succ n ih =>
    rcases eq_or_lt_of_le hkn with rfl | hlt
    · exact ⟨h, rfl⟩
    · obtain ⟨hc, hp⟩ := ih (Nat.lt_succ_iff.mp hlt)
      rw [runLoop_succ, simStep_closed r emi add mhr mfr pm (n + 1) hc]
      exact ⟨rfl, hp⟩

theorem runLoop_closed_bound (r emi add mhr mfr : K) (pm : ℕ)
    (init : SimState K) (hinit : init.closedMonth = none) (k c : ℕ)
    (h : (runLoop r emi add mhr mfr pm k init).closedMonth = some c) :
    1 ≤ c ∧ c ≤ k := by
  induction k with
  | zero => rw [runLoop_zero, hinit] at h; cases h
  | succ k ih =>
    rcases hc : (runLoop r emi add mhr mfr pm k init).closedMonth with _ | c'
    · rw [runLoop_succ,
        simStep_open_closedMonth r emi add mhr mfr pm (k + 1) hc] at h
      split at h
      · cases h
        exact ⟨Nat.succ_le_succ (Nat.zero_le k), le_refl _⟩
      · cases h
    · rw [runLoop_succ, simStep_closed r emi add mhr mfr pm (k + 1) hc] at h
      obtain rfl : c' = c := Option.some.inj h
      obtain ⟨h1, h2⟩ := ih hc
      exact ⟨h1, Nat.le_succ_of_le h2⟩

theorem simStep_principal_nonneg (r emi add mhr mfr : K) (pm m : ℕ)
    (s : SimState K) (h : 0 ≤ s.principal) :
    0 ≤ (simStep r emi add mhr mfr pm s m).principal := by
  rcases hc : s.closedMonth with _ | c
  · rw [simStep_open r emi add mhr mfr pm m hc]
    dsimp only
    split
    · exact applyLumpsum_snd_nonneg _ _
    · exact amortize_nonneg _ _ _
  · rw [simStep_closed r emi add mhr mfr pm m hc]
    exact h

theorem runLoop_principal_nonneg (r emi add mhr mfr : K) (pm : ℕ)
    (init : SimState K) (h : 0 ≤ init.principal) (k : ℕ) :
    0 ≤ (runLoop r emi add mhr mfr pm k init).principal := by
  induction k with
  | zero => exact h
  | succ k ih =>
    rw [runLoop_succ]
    exact simStep_principal_nonneg r emi add mhr mfr pm (k + 1) _ ih

theorem simStep_principal_pos_of_none (r emi add mhr mfr : K) (pm m : ℕ)
    (s : SimState K)
    (h : (simStep r emi add mhr mfr pm s m).closedMonth = none) :
    0 < (simStep r emi add mhr mfr pm s m).principal := by
  rcases hc : s.closedMonth with _ | c
  · rw [simStep_open_closedMonth r emi add mhr mfr pm m hc] at h
    split at h
    · cases h
    · next hle => exact not_le.mp hle
  · rw [simStep_closed r emi add mhr mfr pm m hc] at h
    cases h

theorem simStep_close_spec (r emi add mhr mfr : K) (pm m : ℕ)
    (s : SimState K) (hc : s.closedMonth = none) {c : ℕ}
    (h : (simStep r emi add mhr mfr pm s m).closedMonth = some c) :
    c = m ∧ (simStep r emi add mhr mfr pm s m).principal ≤ 0 := by
  rw [simStep_open_closedMonth r emi add mhr mfr pm m hc] at h
  split at h
  · next hle => exact ⟨(Option.some.inj h).symm, hle⟩
  · cases h

theorem runLoop_closed_state (r emi add mhr mfr : K) (pm : ℕ)
    (init : SimState K) (hinit : init.closedMonth = none) (k c : ℕ)
    (h : (runLoop r emi add mhr mfr pm k init).closedMonth = some c) :
    (runLoop r emi add mhr mfr pm c init).closedMonth = some c ∧
    (runLoop r emi add mhr mfr pm c init).principal ≤ 0 ∧
    (runLoop r emi add mhr mfr pm k init).principal =
      (runLoop r emi add mhr mfr pm c init).principal := by
  induction k with
  | zero => rw [runLoop_zero, hinit] at h; cases h
  | succ k ih =>
    rcases hc : (runLoop r emi add mhr mfr pm k init).closedMonth with _ | c'
    · rw [runLoop_succ] at h
      obtain ⟨rfl, hp⟩ := simStep_close_spec r emi add mhr mfr pm (k + 1) _ hc h
      refine ⟨?_, ?_, rfl⟩
      · rw [runLoop_succ]; exact h
      · rw [runLoop_succ]; exact hp
    · rw [runLoop_succ, simStep_closed r emi add mhr mfr pm (k + 1) hc] at h
      obtain rfl : c' = c := Option.some.inj h
      obtain ⟨h1, h2, h3⟩ := ih hc
      refine ⟨h1, h2, ?_⟩
      rw [runLoop_succ, simStep_closed r emi add mhr mfr pm (k + 1) hc]
      exact h3

theorem runLoop_none_iff (r emi add mhr mfr : K) (pm : ℕ)
    (init : SimState K) (hinit : init.closedMonth = none) (n : ℕ) :
    (runLoop r emi add mhr mfr pm n init).closedMonth = none ↔
      ∀ k, 1 ≤ k → k ≤ n →
        0 < (runLoop r emi add mhr mfr pm k init).principal := by
  constructor
  · intro h k hk1 hkn
    rcases hck : (runLoop r emi add mhr mfr pm k init).closedMonth with _ | c
    · obtain ⟨k', rfl⟩ : ∃ k', k = k' + 1 :=
        ⟨k - 1, (Nat.succ_pred_eq_of_pos hk1).symm⟩
      rw [runLoop_succ] at hck ⊢
      exact simStep_principal_pos_of_none r emi add mhr mfr pm (k' + 1) _ hck
    · have := (runLoop_closed_persist r emi add mhr mfr pm init n k c hkn
        hck).1
      rw [h] at this
      cases this
  · intro hpos
    rcases hce : (runLoop r emi add mhr mfr pm n init).closedMonth with _ | c
    · rfl
    · obtain ⟨hb1, hb2⟩ :=
        runLoop_closed_bound r emi add mhr mfr pm init hinit n c hce
      obtain ⟨_, h2, _⟩ :=
        runLoop_closed_state r emi add mhr mfr pm init hinit n c hce
      exact absurd h2 (not_le.mpr (hpos c hb1 hb2))

theorem runLoop_open_amortSeq (r emi add mhr mfr p hv f : K) (k : ℕ)
    (hA : ∀ j, j ≤ k → 0 < amortSeq r emi p j) :
    (runLoop r emi add mhr mfr 0 k ⟨p, hv, f, none⟩).principal =
      amortSeq r emi p k ∧
    (runLoop r emi add mhr mfr 0 k ⟨p, hv, f, none⟩).closedMonth = none := by
  induction k with
  | zero => exact ⟨rfl, rfl⟩
  | succ k ih =>
    obtain ⟨ihp, ihc⟩ := ih fun j hj => hA j (Nat.le_succ_of_le hj)
    have ham : amortize r emi
        (runLoop r emi add mhr mfr 0 k ⟨p, hv, f, none⟩).principal =
        amortSeq r emi p (k + 1) := by
      rw [ihp]
      exact amortize_amortSeq r emi p k (le_of_lt (hA (k + 1) (le_refl _)))
    rw [runLoop_succ, simStep_open r emi add mhr mfr 0 (k + 1) ihc]
    dsimp only
    rw [ham]
    simp only [Nat.succ_ne_zero, false_and, if_false]
    exact ⟨by simp, by rw [if_neg (not_le.mpr (hA (k + 1) (le_refl _)))]⟩

theorem runLoop_closes_exactly (r emi add mhr mfr p hv f : K) (n : ℕ)
    (hA : ∀ j, j < n → 0 < amortSeq r emi p j)
    (hAn : amortSeq r emi p n = 0) (hn : 0 < n) :
    (runLoop r emi add mhr mfr 0 n ⟨p, hv, f, none⟩).principal = 0 ∧
    (runLoop r emi add mhr mfr 0 n ⟨p, hv, f, none⟩).closedMonth = some n := by
  obtain ⟨n', rfl⟩ : ∃ n', n = n' + 1 :=
    ⟨n - 1, (Nat.succ_pred_eq_of_pos hn).symm⟩
  obtain ⟨ihp, ihc⟩ := runLoop_open_amortSeq r emi add mhr mfr p hv f n'
    fun j hj => hA j (Nat.lt_succ_of_le hj)
  have ham : amortize r emi
      (runLoop r emi add mhr mfr 0 n' ⟨p, hv, f, none⟩).principal = 0 := by
    rw [ihp, amortize_amortSeq r emi p n' (le_of_eq hAn.symm), hAn]
  rw [runLoop_succ, simStep_open r emi add mhr mfr 0 (n' + 1) ihc]
  dsimp only
  rw [ham]
  simp only [Nat.succ_ne_zero, false_and, if_false, lt_irrefl, and_false,
    le_refl, if_true]
  exact ⟨by simp, by simp⟩

theorem amortSeq_rate_zero (r emi p : K) (h : r / 100 / 12 = 0) (k : ℕ) :
    amortSeq r emi p k = p - k * emi := by
  induction k with
  | zero => simp [amortSeq]
  | succ k ih =>
    show amortSeq r emi p k - (emi - amortSeq r emi p k * (r / 100 / 12)) = _
    rw [ih, h]
    push_cast
    ring

theorem amortSeq_closed_form (r emi p : K) (h : r / 100 / 12 ≠ 0) (k : ℕ) :
    amortSeq r emi p k =
      (p - emi / (r / 100 / 12)) * (1 + r / 100 / 12) ^ k +
        emi / (r / 100 / 12) := by
  have hr0 : r ≠ 0 := fun h' => h (by rw [h']; norm_num)
  induction k with
  | zero => simp [amortSeq]
  | succ k ih =>
    show amortSeq r emi p k - (emi - amortSeq r emi p k * (r / 100 / 12)) = _
    rw [ih]
    field_simp
    ring

theorem emi_div_formula (p m B : K) (n : ℕ) (hB : B ^ n ≠ 0)
    (hD : B ^ n - 1 ≠ 0) :
    p * m / (1 - (B ^ n)⁻¹) = p * m * B ^ n / (B ^ n - 1) := by
  rw [div_eq_div_iff]
  · field_simp
    ring
  · intro hz
    apply hD
    have : (B ^ n)⁻¹ = 1 := by linarith
    have hB1 : B ^ n = 1 := by
      have := congrArg (fun x => x * B ^ n) this
      simpa [inv_mul_cancel₀ hB] using this.symm
    rw [hB1]
    ring
  · exact hD

theorem amort_div_formula (p m B : K) (n k : ℕ) (hm : m ≠ 0)
    (hD : B ^ n - 1 ≠ 0) :
    (p - p * m * B ^ n / (B ^ n - 1) / m) * B ^ k +
        p * m * B ^ n / (B ^ n - 1) / m =
      p * (B ^ n - B ^ k) / (B ^ n - 1) := by
  field_simp
  ring

theorem amortSeq_emi_spec (p r : K) (n : ℕ)
    (hp : 0 < p) (hr : 0 ≤ r) (hn : 0 < n) :
    (∀ j, j < n → 0 < amortSeq r (calculate_emi p r n) p j) ∧
    amortSeq r (calculate_emi p r n) p n = 0 := by
  by_cases h0 : r / 100 / 12 = 0
  · have hemi : calculate_emi p r n = p / (n : K) := by
      simp only [calculate_emi]
      rw [if_pos h0]
    have hnK : (0 : K) < (n : K) := by exact_mod_cast hn
    constructor
    · intro j hj
      rw [amortSeq_rate_zero r _ p h0 j, hemi]
      have hjn : (j : K) < (n : K) := by exact_mod_cast hj
      have hrw : p - (j : K) * (p / (n : K)) = p * ((n : K) - j) / n := by
        field_simp
        ring
      rw [hrw]
      exact div_pos (mul_pos hp (by linarith)) hnK
    · rw [amortSeq_rate_zero r _ p h0 n, hemi]
      field_simp
  · have hmir : 0 < r / 100 / 12 :=
      lt_of_le_of_ne (by positivity) (Ne.symm h0)
    have hb : 1 < 1 + r / 100 / 12 := by linarith
    have hbne : (1 + r / 100 / 12) ≠ 0 := by linarith
    have hbn : 1 < (1 + r / 100 / 12) ^ n :=
      one_lt_pow₀ hb (Nat.pos_iff_ne_zero.mp hn)
    have hD : 0 < (1 + r / 100 / 12) ^ n - 1 := by linarith
    have hDne : (1 + r / 100 / 12) ^ n - 1 ≠ 0 := ne_of_gt hD
    have hpowne : (1 + r / 100 / 12) ^ n ≠ 0 := pow_ne_zero _ hbne
    have hemi : calculate_emi p r n =
        p * (r / 100 / 12) * (1 + r / 100 / 12) ^ n /
          ((1 + r / 100 / 12) ^ n - 1) := by
      simp only [calculate_emi]
      rw [if_neg h0, zpow_neg, zpow_natCast]
      exact emi_div_formula p (r / 100 / 12) (1 + r / 100 / 12) n hpowne hDne
    have hA : ∀ k, amortSeq r (calculate_emi p r n) p k =
        p * ((1 + r / 100 / 12) ^ n - (1 + r / 100 / 12) ^ k) /
          ((1 + r / 100 / 12) ^ n - 1) := by
      intro k
      rw [amortSeq_closed_form r _ p h0 k, hemi]
      exact amort_div_formula p (r / 100 / 12) (1 + r / 100 / 12) n k h0 hDne
    constructor
    · intro j hj
      rw [hA j]
      have hpow : (1 + r / 100 / 12) ^ j < (1 + r / 100 / 12) ^ n :=
        pow_lt_pow_right₀ hb hj
      exact div_pos (mul_pos hp (by linarith)) hD
    · rw [hA n]
      simp

theorem simStep_eq_noLumpsum (r emi add mhr mfr : K) (pm : ℕ)
    (s : SimState K) (m : ℕ) (hm : m ≠ pm) :
    simStep r emi add mhr mfr pm s m =
      simStepNoLumpsum r emi add mhr mfr s m := by
  rcases hc : s.closedMonth with _ | c
  · rw [simStep_open r emi add mhr mfr pm m hc]
    unfold simStepNoLumpsum
    simp [hc, hm, contribute]
  · rw [simStep_closed r emi add mhr mfr pm m hc]
    unfold simStepNoLumpsum
    simp [hc, contribute]

theorem runLoop_prepay_gt (r emi add mhr mfr : K) (pm n : ℕ)
    (init : SimState K) (hpm : n < pm) :
    runLoop r emi add mhr mfr pm n init =
      runLoop r emi add mhr mfr 0 n init := by
  induction n with
  | zero => rfl
  | succ n ih =>
    rw [runLoop_succ, runLoop_succ, ih (Nat.lt_of_succ_lt hpm),
      simStep_eq_noLumpsum r emi add mhr mfr pm _ (n + 1)
        (Nat.ne_of_lt hpm),
      simStep_eq_noLumpsum r emi add mhr mfr 0 _ (n + 1)
        (Nat.succ_ne_zero n)]

theorem runLoop_house (r emi add mhr mfr : K) (pm n : ℕ)
    (init : SimState K) :
    (runLoop r emi add mhr mfr pm n init).house =
      init.house * (1 + mhr) ^ n := by
  induction n with
  | zero => simp [runLoop_zero]
  | succ n ih =>
    rw [runLoop_succ, simStep_house, ih, pow_succ, mul_assoc]

theorem calculate_emiE_ok (p r : K) (n : ℕ) (hr : 0 ≤ r) (hn : 0 < n) :
    calculate_emiE p r n = .ok (calculate_emi p r n) := by
  unfold calculate_emiE calculate_emi
  by_cases h0 : r / 100 / 12 = 0
  · rw [if_pos h0, if_pos h0]
    unfold pydiv
    rw [if_neg]
    exact_mod_cast Nat.pos_iff_ne_zero.mp hn
  · have hmir : 0 < r / 100 / 12 :=
      lt_of_le_of_ne (by positivity) (Ne.symm h0)
    have hb : 1 < 1 + r / 100 / 12 := by linarith
    have hbn : 1 < (1 + r / 100 / 12) ^ n :=
      one_lt_pow₀ hb (Nat.pos_iff_ne_zero.mp hn)
    rw [if_neg h0, if_neg h0]
    have hzp : pyzpow (1 + r / 100 / 12) (-(n : ℤ)) =
        .ok ((1 + r / 100 / 12) ^ (-(n : ℤ))) := by
      unfold pyzpow
      rw [if_neg]
      rintro ⟨h1, -⟩
      linarith
    rw [hzp]
    show pydiv (p * (r / 100 / 12))
      (1 - (1 + r / 100 / 12) ^ (-(n : ℤ))) = _
    unfold pydiv
    rw [if_neg]
    rw [zpow_neg, zpow_natCast]
    have hinv : ((1 + r / 100 / 12) ^ n)⁻¹ < 1 := by
      rw [inv_lt_one_iff₀]
      right
      exact hbn
    intro hz
    linarith

theorem simulateE_eq_ok (p r : ℝ) (n : ℕ)
    (hv hg f a mg : ℝ) (pm : ℕ) (hr : 0 ≤ r) (hn : 0 < n) :
    simulate_loan_mf_scenarioE p r n hv hg f a mg pm =
      .ok (simulate_loan_mf_scenario p r n hv hg f a mg pm) := by
  unfold simulate_loan_mf_scenarioE simulate_loan_mf_scenario
  rw [calculate_emiE_ok p r n hr hn]
  rfl

theorem runLoop_one (r emi add mhr mfr : K) (pm : ℕ) (init : SimState K) :
    runLoop r emi add mhr mfr pm 1 init =
      simStep r emi add mhr mfr pm init 1 := rfl

theorem runLoop_two (r emi add mhr mfr : K) (pm : ℕ) (init : SimState K) :
    runLoop r emi add mhr mfr pm 2 init =
      simStep r emi add mhr mfr pm
        (simStep r emi add mhr mfr pm init 1) 2 := rfl

end Lemmas

section Claims

/-- **C3**: for every principal > 0, annual rate ≥ 0 and tenure `n > 0`,
amortizing with the EMI returned by `calculate_emi` — each month adding
interest `p * (rate/100/12)` and subtracting the EMI — reduces the
running principal to exactly zero after `n` months (exact field
arithmetic), and with prepayment disabled (prepay month 0) the simulated
loan closes by month `n`. -/
theorem C3_emi_amortizes_to_zero {K : Type*} [LinearOrderedField K]
    (p r : K) (n : ℕ) (add mhr mfr hv f : K)
    (hp : 0 < p) (hr : 0 ≤ r) (hn : 0 < n) :
    amortSeq r (calculate_emi p r n) p n = 0 ∧
    (runLoop r (calculate_emi p r n) add mhr mfr 0 n
      ⟨p, hv, f, none⟩).principal = 0 ∧
    ∃ m, (runLoop r (calculate_emi p r n) add mhr mfr 0 n
      ⟨p, hv, f, none⟩).closedMonth = some m ∧ m ≤ n := by
  obtain ⟨hA, hAn⟩ := amortSeq_emi_spec p r n hp hr hn
  obtain ⟨h1, h2⟩ := runLoop_closes_exactly r _ add mhr mfr p hv f n hA hAn hn
  exact ⟨hAn, h1, n, h2, le_refl n⟩

/-- Witness for **C3** at principal 100, rate 8 %, tenure 3 months. -/
theorem C3_witness :
    (0 : ℚ) < 100 ∧ (0 : ℚ) ≤ 8 ∧ 0 < 3 ∧
    (amortSeq 8 (calculate_emi (100 : ℚ) 8 3) 100 3 = 0 ∧
     (runLoop 8 (calculate_emi (100 : ℚ) 8 3) 5 0 0 0 3
       ⟨100, 200, 300, none⟩).principal = 0 ∧
     ∃ m, (runLoop 8 (calculate_emi (100 : ℚ) 8 3) 5 0 0 0 3
       ⟨100, 200, 300, none⟩).closedMonth = some m ∧ m ≤ 3) :=
  ⟨by norm_num, by norm_num, by norm_num,
    C3_emi_amortizes_to_zero 100 8 3 5 0 0 200 300
      (by norm_num) (by norm_num) (by norm_num)⟩

/-- **C4**: for every run started from a nonnegative principal, the
principal is nonnegative after every month of the simulation, and the
intermediate values after the amortization clamp and after the lumpsum
prepayment clamp are nonnegative as well. -/
theorem C4_principal_never_negative {K : Type*} [LinearOrderedField K]
    (r emi add mhr mfr : K) (pm : ℕ) (p hv f : K) (hp : 0 ≤ p) :
    (∀ k, 0 ≤ (runLoop r emi add mhr mfr pm k ⟨p, hv, f, none⟩).principal) ∧
    (∀ q, 0 ≤ amortize r emi q) ∧
    (∀ fund q : K, 0 ≤ (applyLumpsum fund q).2) :=
  ⟨runLoop_principal_nonneg r emi add mhr mfr pm _ hp,
   fun q => amortize_nonneg r emi q,
   fun fund q => applyLumpsum_snd_nonneg fund q⟩

/-- Witness for **C4** at a concrete scenario. -/
theorem C4_witness :
    (0 : ℚ) ≤ 100 ∧
    ((∀ k, 0 ≤ (runLoop (8 : ℚ) 20 5 0 0 4 k
        ⟨100, 200, 300, none⟩).principal) ∧
     (∀ q, 0 ≤ amortize (8 : ℚ) 20 q) ∧
     (∀ fund q : ℚ, 0 ≤ (applyLumpsum fund q).2)) :=
  ⟨by norm_num,
    C4_principal_never_negative 8 20 5 0 0 4 100 200 300 (by norm_num)⟩

/-- **C5**: the loan-closed month is set at most once (once closed it
persists and the principal is frozen, so no further amortization occurs);
any recorded closed month `m` satisfies `1 ≤ m ≤ tenure`; and the closed
month is `none` exactly when the principal stays strictly positive in
every month of the tenure.  The close check runs after both amortization
and prepayment of a month, which is what the freezing argument encodes. -/
theorem C5_closed_month_invariants {K : Type*} [LinearOrderedField K]
    (r emi add mhr mfr : K) (pm : ℕ) (p hv f : K) (tenure : ℕ) :
    (∀ k j c,
      (runLoop r emi add mhr mfr pm k ⟨p, hv, f, none⟩).closedMonth =
        some c →
      k ≤ j →
      (runLoop r emi add mhr mfr pm j ⟨p, hv, f, none⟩).closedMonth =
        some c ∧
      (runLoop r emi add mhr mfr pm j ⟨p, hv, f, none⟩).principal =
        (runLoop r emi add mhr mfr pm k ⟨p, hv, f, none⟩).principal) ∧
    (∀ m,
      (runLoop r emi add mhr mfr pm tenure ⟨p, hv, f, none⟩).closedMonth =
        some m → 1 ≤ m ∧ m ≤ tenure) ∧
    ((runLoop r emi add mhr mfr pm tenure ⟨p, hv, f, none⟩).closedMonth =
        none ↔
      ∀ k, 1 ≤ k → k ≤ tenure →
        0 < (runLoop r emi add mhr mfr pm k ⟨p, hv, f, none⟩).principal) :=
  ⟨fun k j c hc hkj =>
    runLoop_closed_persist r emi add mhr mfr pm _ j k c hkj hc,
   fun m hm => runLoop_closed_bound r emi add mhr mfr pm _ rfl tenure m hm,
   runLoop_none_iff r emi add mhr mfr pm _ rfl tenure⟩

/-- Witness for **C5**: a zero-interest loan of 100 with EMI 50 closes at
month 2 of a 2-month tenure; the closed month persists, is bounded by the
tenure, and the `none`-iff characterisation holds at this input. -/
theorem C5_witness :
    (runLoop (0 : ℚ) 50 5 0 0 0 2 ⟨100, 200, 300, none⟩).closedMonth =
      some 2 ∧
    (runLoop (0 : ℚ) 50 5 0 0 0 2 ⟨100, 200, 300, none⟩).closedMonth =
      some 2 ∧
    1 ≤ 2 ∧ 2 ≤ 2 := by
  have hclosed : (runLoop (0 : ℚ) 50 5 0 0 0 2
      ⟨100, 200, 300, none⟩).closedMonth = some 2 := by
    rw [runLoop_two]
    norm_num [simStep, contribute, amortize, applyLumpsum]
  have h2 := (C5_closed_month_invariants (0 : ℚ) 50 5 0 0 0 100 200 300
    2).1 2 2 2 hclosed (le_refl 2)
  have h3 := (C5_closed_month_invariants (0 : ℚ) 50 5 0 0 0 100 200 300
    2).2.1 2 hclosed
  exact ⟨hclosed, h2.1, h3.1, h3.2⟩

/-- **C6**: in every month `m ≥ 1` of a run, the fund contribution of
that month is exactly the configured monthly addition if the loan is
still open at the start of the month (including the month in which the
loan closes), and exactly `EMI + addition` if the loan was closed in a
strictly earlier month `c < m` — the freed-up EMI reaches the fund only
from the month after closure. -/
theorem C6_fund_contribution {K : Type*} [LinearOrderedField K]
    (r emi add mhr mfr : K) (pm : ℕ) (p hv f : K) (m : ℕ) (hm : 1 ≤ m) :
    ((runLoop r emi add mhr mfr pm (m - 1)
        ⟨p, hv, f, none⟩).closedMonth = none →
      contribute emi add
        (runLoop r emi add mhr mfr pm (m - 1) ⟨p, hv, f, none⟩).closedMonth
        (runLoop r emi add mhr mfr pm (m - 1) ⟨p, hv, f, none⟩).mf =
      (runLoop r emi add mhr mfr pm (m - 1) ⟨p, hv, f, none⟩).mf + add) ∧
    (∀ c, (runLoop r emi add mhr mfr pm (m - 1)
        ⟨p, hv, f, none⟩).closedMonth = some c →
      c < m ∧
      contribute emi add
        (runLoop r emi add mhr mfr pm (m - 1) ⟨p, hv, f, none⟩).closedMonth
        (runLoop r emi add mhr mfr pm (m - 1) ⟨p, hv, f, none⟩).mf =
        (runLoop r emi add mhr mfr pm (m - 1) ⟨p, hv, f, none⟩).mf +
          (emi + add) ∧
      (simStep r emi add mhr mfr pm
        (runLoop r emi add mhr mfr pm (m - 1) ⟨p, hv, f, none⟩) m).mf =
        ((runLoop r emi add mhr mfr pm (m - 1) ⟨p, hv, f, none⟩).mf +
          (emi + add)) * (1 + mfr)) := by
  constructor
  · intro hc
    rw [hc]
    rfl
  · intro c hc
    have hb := runLoop_closed_bound r emi add mhr mfr pm _ rfl (m - 1) c hc
    refine ⟨lt_of_le_of_lt hb.2
      (Nat.sub_lt (lt_of_lt_of_le zero_lt_one hm) zero_lt_one), ?_, ?_⟩
    · rw [hc]
      rfl
    · rw [simStep_closed r emi add mhr mfr pm m hc]

/-- Witness for **C6** at month 1 of a fresh run, where the loan is open
and the contribution is the monthly addition alone. -/
theorem C6_witness :
    contribute (20 : ℚ) 5
      (runLoop (8 : ℚ) 20 5 0 0 2 0 ⟨100, 200, 300, none⟩).closedMonth
      (runLoop (8 : ℚ) 20 5 0 0 2 0 ⟨100, 200, 300, none⟩).mf =
    (runLoop (8 : ℚ) 20 5 0 0 2 0 ⟨100, 200, 300, none⟩).mf + 5 :=
  (C6_fund_contribution (8 : ℚ) 20 5 0 0 2 100 200 300 1 (le_refl 1)).1 rfl

/-- **C7**: with prepayment month 0 every month's step (month index ≥ 1)
coincides with the step with the lumpsum branch deleted, so no lumpsum
withdrawal is ever applied to the fund; and a prepayment month strictly
greater than the tenure is inert — the simulation returns exactly the
same (house, fund, closed month) result as prepayment month 0. -/
theorem C7_prepay_zero_and_inert (p r : ℝ) (n : ℕ) (hv g f a mg : ℝ) :
    (∀ (emi add mhr mfr : ℝ) (s : SimState ℝ) (m : ℕ), 1 ≤ m →
      simStep r emi add mhr mfr 0 s m =
        simStepNoLumpsum r emi add mhr mfr s m) ∧
    (∀ pm, n < pm →
      simulate_loan_mf_scenario p r n hv g f a mg pm =
        simulate_loan_mf_scenario p r n hv g f a mg 0) := by
  constructor
  · intro emi add mhr mfr s m hm
    exact simStep_eq_noLumpsum r emi add mhr mfr 0 s m
      (Nat.pos_iff_ne_zero.mp hm)
  · intro pm hpm
    unfold simulate_loan_mf_scenario
    dsimp only
    rw [runLoop_prepay_gt _ _ _ _ _ pm n _ hpm]

/-- Witness for **C7**: month 1 with prepay month 0, and prepay month 13
on a 12-month tenure. -/
theorem C7_witness :
    (simStep (8 : ℝ) 20 5 0 0 0 ⟨100, 200, 300, none⟩ 1 =
      simStepNoLumpsum (8 : ℝ) 20 5 0 0 ⟨100, 200, 300, none⟩ 1) ∧
    simulate_loan_mf_scenario 500000 8 12 2000000 (5 / 100) 100000 1000
        (14 / 100) 13 =
      simulate_loan_mf_scenario 500000 8 12 2000000 (5 / 100) 100000 1000
        (14 / 100) 0 :=
  ⟨(C7_prepay_zero_and_inert 500000 8 12 2000000 (5 / 100) 100000 1000
      (14 / 100)).1 20 5 0 0 ⟨100, 200, 300, none⟩ 1 (le_refl 1),
   (C7_prepay_zero_and_inert 500000 8 12 2000000 (5 / 100) 100000 1000
      (14 / 100)).2 13 (by norm_num)⟩

/-- **C8**: if the loan is open entering its prepayment month `m` with
`1 ≤ m ≤ tenure`, the post-amortization principal `p₁` is positive, and
the post-contribution fund is at least `p₁`, then the withdrawn lumpsum
`min(fund, principal)` equals `p₁` exactly, the fund is reduced by
exactly `p₁` (before that month's growth), the principal is cleared to
zero, and the recorded closed month equals `m` — both at month `m` and
still at the end of the tenure. -/
theorem C8_lumpsum_full_payoff {K : Type*} [LinearOrderedField K]
    (r emi add mhr mfr : K) (p hv f : K) (n m : ℕ)
    (hm1 : 1 ≤ m) (hmn : m ≤ n)
    (hopen : (runLoop r emi add mhr mfr m (m - 1)
      ⟨p, hv, f, none⟩).closedMonth = none)
    (hpos : 0 < amortize r emi
      (runLoop r emi add mhr mfr m (m - 1) ⟨p, hv, f, none⟩).principal)
    (hfund : amortize r emi
        (runLoop r emi add mhr mfr m (m - 1) ⟨p, hv, f, none⟩).principal ≤
      (runLoop r emi add mhr mfr m (m - 1) ⟨p, hv, f, none⟩).mf + add) :
    min ((runLoop r emi add mhr mfr m (m - 1) ⟨p, hv, f, none⟩).mf + add)
        (amortize r emi (runLoop r emi add mhr mfr m (m - 1)
          ⟨p, hv, f, none⟩).principal) =
      amortize r emi (runLoop r emi add mhr mfr m (m - 1)
        ⟨p, hv, f, none⟩).principal ∧
    (runLoop r emi add mhr mfr m m ⟨p, hv, f, none⟩).principal = 0 ∧
    (runLoop r emi add mhr mfr m m ⟨p, hv, f, none⟩).mf =
      ((runLoop r emi add mhr mfr m (m - 1) ⟨p, hv, f, none⟩).mf + add -
        amortize r emi (runLoop r emi add mhr mfr m (m - 1)
          ⟨p, hv, f, none⟩).principal) * (1 + mfr) ∧
    (runLoop r emi add mhr mfr m m ⟨p, hv, f, none⟩).closedMonth =
      some m ∧
    (runLoop r emi add mhr mfr m n ⟨p, hv, f, none⟩).closedMonth =
      some m := by
  obtain ⟨m', rfl⟩ : ∃ m', m = m' + 1 :=
    ⟨m - 1, (Nat.succ_pred_eq_of_pos hm1).symm⟩
  simp only [Nat.add_sub_cancel] at hopen hpos hfund ⊢
  have hrec : runLoop r emi add mhr mfr (m' + 1) (m' + 1) ⟨p, hv, f, none⟩ =
      { principal := 0,
        house := (runLoop r emi add mhr mfr (m' + 1) m'
          ⟨p, hv, f, none⟩).house * (1 + mhr),
        mf := ((runLoop r emi add mhr mfr (m' + 1) m'
            ⟨p, hv, f, none⟩).mf + add -
          amortize r emi (runLoop r emi add mhr mfr (m' + 1) m'
            ⟨p, hv, f, none⟩).principal) * (1 + mfr),
        closedMonth := some (m' + 1) } := by
    rw [runLoop_succ, simStep_open r emi add mhr mfr (m' + 1) (m' + 1)
      hopen]
    dsimp only
    rw [if_pos ⟨rfl, hpos⟩]
    unfold applyLumpsum
    dsimp only
    rw [min_eq_right hfund]
    simp
  refine ⟨min_eq_right hfund, ?_, ?_, ?_, ?_⟩
  · rw [hrec]
  · rw [hrec]
  · rw [hrec]
  · exact (runLoop_closed_persist r emi add mhr mfr (m' + 1) _ n (m' + 1)
      (m' + 1) hmn (by rw [hrec])).1

/-- Witness for **C8**: zero-interest loan of 100 with EMI 50, fund 1000,
prepay month 1 of a 2-month tenure: month 1 amortizes to 50, the lumpsum
50 clears the loan, the fund drops by exactly 50, the closed month is 1. -/
theorem C8_witness :
    ((runLoop (0 : ℚ) 50 0 0 0 1 0 ⟨100, 0, 1000, none⟩).closedMonth =
      none ∧
     0 < amortize (0 : ℚ) 50
      (runLoop (0 : ℚ) 50 0 0 0 1 0 ⟨100, 0, 1000, none⟩).principal) ∧
    min ((runLoop (0 : ℚ) 50 0 0 0 1 0 ⟨100, 0, 1000, none⟩).mf + 0)
        (amortize (0 : ℚ) 50 (runLoop (0 : ℚ) 50 0 0 0 1 0
          ⟨100, 0, 1000, none⟩).principal) =
      amortize (0 : ℚ) 50 (runLoop (0 : ℚ) 50 0 0 0 1 0
        ⟨100, 0, 1000, none⟩).principal ∧
    (runLoop (0 : ℚ) 50 0 0 0 1 1 ⟨100, 0, 1000, none⟩).principal = 0 ∧
    (runLoop (0 : ℚ) 50 0 0 0 1 1 ⟨100, 0, 1000, none⟩).mf =
      ((runLoop (0 : ℚ) 50 0 0 0 1 0 ⟨100, 0, 1000, none⟩).mf + 0 -
        amortize (0 : ℚ) 50 (runLoop (0 : ℚ) 50 0 0 0 1 0
          ⟨100, 0, 1000, none⟩).principal) * (1 + 0) ∧
    (runLoop (0 : ℚ) 50 0 0 0 1 1 ⟨100, 0, 1000, none⟩).closedMonth =
      some 1 ∧
    (runLoop (0 : ℚ) 50 0 0 0 1 2 ⟨100, 0, 1000, none⟩).closedMonth =
      some 1 :=
  ⟨⟨rfl, by norm_num [runLoop_zero, amortize]⟩,
   C8_lumpsum_full_payoff (0 : ℚ) 50 0 0 0 100 0 1000 2 1
    (le_refl 1) (by norm_num) rfl
    (by norm_num [runLoop_zero, amortize])
    (by norm_num [runLoop_zero, amortize])⟩

/-- **C9**: the scenario simulator is deterministic — two runs with
identical inputs (principal, rate, tenure, house, fund, prepayment
month) return identical (house value, fund value, closed month)
triples. -/
theorem C9_deterministic (p₁ r₁ : ℝ) (n₁ : ℕ) (hv₁ g₁ f₁ a₁ mg₁ : ℝ)
    (pm₁ : ℕ) (p₂ r₂ : ℝ) (n₂ : ℕ) (hv₂ g₂ f₂ a₂ mg₂ : ℝ) (pm₂ : ℕ)
    (h1 : p₁ = p₂) (h2 : r₁ = r₂) (h3 : n₁ = n₂) (h4 : hv₁ = hv₂)
    (h5 : g₁ = g₂) (h6 : f₁ = f₂) (h7 : a₁ = a₂) (h8 : mg₁ = mg₂)
    (h9 : pm₁ = pm₂) :
    simulate_loan_mf_scenario p₁ r₁ n₁ hv₁ g₁ f₁ a₁ mg₁ pm₁ =
      simulate_loan_mf_scenario p₂ r₂ n₂ hv₂ g₂ f₂ a₂ mg₂ pm₂ := by
  subst h1 h2 h3 h4 h5 h6 h7 h8 h9
  rfl

/-- Witness for **C9** at the spec's example scenario. -/
theorem C9_witness :
    simulate_loan_mf_scenario 5000000 8 240 20000000 (5 / 100) 3300000
        235000 (14 / 100) 7 =
      simulate_loan_mf_scenario 5000000 8 240 20000000 (5 / 100) 3300000
        235000 (14 / 100) 7 :=
  C9_deterministic 5000000 8 240 20000000 (5 / 100) 3300000 235000
    (14 / 100) 7 5000000 8 240 20000000 (5 / 100) 3300000 235000
    (14 / 100) 7 rfl rfl rfl rfl rfl rfl rfl rfl rfl

/-- **C10**: the final house value returned by the simulator equals
`house_value * ((1 + growth) ^ (1/12)) ^ tenure` and is independent of
the prepayment month and of all loan and fund parameters. -/
theorem C10_house_value_independent (p r : ℝ) (n : ℕ)
    (hv g f a mg : ℝ) (pm : ℕ) :
    (simulate_loan_mf_scenario p r n hv g f a mg pm).1 =
      hv * ((1 + g) ^ ((1 : ℝ) / 12)) ^ n ∧
    ∀ (q w e t y : ℝ) (pm' : ℕ),
      (simulate_loan_mf_scenario q w n hv g e t y pm').1 =
        (simulate_loan_mf_scenario p r n hv g f a mg pm).1 := by
  have key : ∀ (q w e t y : ℝ) (pm' : ℕ),
      (simulate_loan_mf_scenario q w n hv g e t y pm').1 =
        hv * ((1 + g) ^ ((1 : ℝ) / 12)) ^ n := by
    intro q w e t y pm'
    unfold simulate_loan_mf_scenario
    dsimp only
    rw [runLoop_house]
    have h1 : 1 + ((1 + g) ^ ((1 : ℝ) / 12) - 1) =
        (1 + g) ^ ((1 : ℝ) / 12) := by ring
    rw [h1]
  exact ⟨key p r f a mg pm,
    fun q w e t y pm' => (key q w e t y pm').trans (key p r f a mg pm).symm⟩

/-- Every record of the sweep is a `resultRecord`. -/
theorem main_results_records (a b : ℝ) (ty : ℕ) (c d e f g : ℝ)
    (rec : List (String × PyVal ℝ))
    (h : rec ∈ main_results a b ty c d e f g) :
    ∃ pm fh fm, rec = resultRecord pm fh fm := by
  unfold main_results at h
  simp only [List.mem_map] at h
  obtain ⟨pm, -, hrec⟩ := h
  exact ⟨pm, _, _, hrec.symm⟩

/-- A `resultRecord` holds no nullable-month value at all. -/
theorem resultRecord_no_optNat {K : Type*} [Add K] (pm : ℕ) (fh fm : K)
    (key : String) (mv : Option ℕ) :
    (key, PyVal.optNat mv) ∉ resultRecord pm fh fm := by
  intro h
  simp [resultRecord] at h

/-- **C1 (counterexample)**: at the app's default slider inputs, it is
not the case that every sweep record contains a loan-closed-month value:
no record contains any nullable-month entry, because `main` drops the
`closed_mth` component returned by the simulator. -/
theorem C1_counterexample :
    ¬ ∀ rec ∈ main_results 50 8 20 2 5 33 2.35 14,
        ∃ key mv, (key, PyVal.optNat mv) ∈ rec := by
  intro h
  have hne : main_results 50 8 20 2 5 33 2.35 14 ≠ [] := by
    unfold main_results
    simp
  obtain ⟨rec, hrec⟩ := List.exists_mem_of_ne_nil _ hne
  obtain ⟨key, mv, hmem⟩ := h rec hrec
  obtain ⟨pm, fh, fm, rfl⟩ :=
    main_results_records 50 8 20 2 5 33 2.35 14 rec hrec
  exact resultRecord_no_optNat pm fh fm key mv hmem

/-- **C1 (amended)**: the sweep produces one record per prepayment month
`0..tenure_months`, and the record for month `pm` is exactly
`{PrepayMonth, HouseValue, MFValue, NetWorth}` built from the simulator's
final house and fund values for that month.  No record contains the
loan-closed month: the simulator returns it but `main` discards it. -/
theorem C1_amended_records (a b : ℝ) (ty : ℕ) (c d e f g : ℝ) (pm : ℕ)
    (hpm : pm < ty * 12 + 1) :
    (main_results a b ty c d e f g).length = ty * 12 + 1 ∧
    (main_results a b ty c d e f g)[pm]? =
      some (resultRecord pm
        (simulate_loan_mf_scenario (a * 100000) b (ty * 12)
          (c * 10000000) (d / 100) (e * 100000) (f * 100000) (g / 100)
          pm).1
        (simulate_loan_mf_scenario (a * 100000) b (ty * 12)
          (c * 10000000) (d / 100) (e * 100000) (f * 100000) (g / 100)
          pm).2.1) ∧
    ∀ rec ∈ main_results a b ty c d e f g,
      rec.map Prod.fst =
        ["PrepayMonth", "HouseValue", "MFValue", "NetWorth"] ∧
      ∀ key mv, (key, PyVal.optNat mv) ∉ rec := by
  refine ⟨?_, ?_, ?_⟩
  · unfold main_results
    simp
  · unfold main_results
    simp [List.getElem?_map, List.getElem?_range, hpm]
  · intro rec hrec
    obtain ⟨pm', fh, fm, rfl⟩ :=
      main_results_records a b ty c d e f g rec hrec
    exact ⟨rfl, fun key mv => resultRecord_no_optNat pm' fh fm key mv⟩

/-- Witness for **C1 (amended)** at the default slider inputs and
prepayment month 0. -/
theorem C1_amended_witness :
    (0 : ℕ) < 20 * 12 + 1 ∧
    ((main_results 50 8 20 2 5 33 2.35 14).length = 20 * 12 + 1 ∧
     (main_results 50 8 20 2 5 33 2.35 14)[0]? =
       some (resultRecord 0
         (simulate_loan_mf_scenario (50 * 100000) 8 (20 * 12)
           (2 * 10000000) (5 / 100) (33 * 100000) (2.35 * 100000)
           (14 / 100) 0).1
         (simulate_loan_mf_scenario (50 * 100000) 8 (20 * 12)
           (2 * 10000000) (5 / 100) (33 * 100000) (2.35 * 100000)
           (14 / 100) 0).2.1) ∧
     ∀ rec ∈ main_results 50 8 20 2 5 33 2.35 14,
       rec.map Prod.fst =
         ["PrepayMonth", "HouseValue", "MFValue", "NetWorth"] ∧
       ∀ key mv, (key, PyVal.optNat mv) ∉ rec) :=
  ⟨by norm_num, C1_amended_records 50 8 20 2 5 33 2.35 14 0 (by norm_num)⟩

/-- **C2 (counterexample)**: the code contains no input validation and no
`InvalidInput` error.  With tenure 0 the EMI computation fails with a
`ZeroDivisionError` (inside the arithmetic, not before it), and with a
negative principal the whole simulation happily succeeds and returns a
full result, which is not the `InvalidInput` failure the claim
demands. -/
theorem C2_counterexample :
    calculate_emiE (100 : ℚ) 0 0 = .error .zeroDivision ∧
    calculate_emiE (100 : ℚ) 8 0 = .error .zeroDivision ∧
    simulate_loan_mf_scenarioE (-500000) 8 12 2000000 (5 / 100) 100000
        1000 (14 / 100) 6 =
      .ok (simulate_loan_mf_scenario (-500000) 8 12 2000000 (5 / 100)
        100000 1000 (14 / 100) 6) ∧
    simulate_loan_mf_scenarioE (-500000) 8 12 2000000 (5 / 100) 100000
        1000 (14 / 100) 6 ≠ .error .invalidInput := by
  refine ⟨?_, ?_, ?_, ?_⟩
  · unfold calculate_emiE
    rw [if_pos (by norm_num)]
    unfold pydiv
    rw [if_pos (by norm_num)]
  · unfold calculate_emiE
    rw [if_neg (by norm_num)]
    have hzp : pyzpow ((1 : ℚ) + 8 / 100 / 12) (-((0 : ℕ) : ℤ)) =
        .ok 1 := by
      unfold pyzpow
      rw [if_neg (by norm_num)]
      norm_num
    rw [hzp]
    show pydiv ((100 : ℚ) * (8 / 100 / 12)) (1 - 1) = _
    unfold pydiv
    rw [if_pos (by norm_num)]
  · exact simulateE_eq_ok (-500000) 8 12 2000000 (5 / 100) 100000 1000
      (14 / 100) 6 (by norm_num) (by norm_num)
  · rw [simulateE_eq_ok (-500000) 8 12 2000000 (5 / 100) 100000 1000
      (14 / 100) 6 (by norm_num) (by norm_num)]
    simp

/-- **C2 (amended)**: the code performs no input validation whatsoever.
A zero tenure is not rejected up front but crashes with a
`ZeroDivisionError` inside the EMI arithmetic; any other input with a
positive tenure and nonnegative loan rate — including a negative
principal or an out-of-range prepayment month — is simulated normally
and a full result is returned. -/
theorem C2_amended_no_validation :
    (∀ p r : ℝ, calculate_emiE p r 0 = .error .zeroDivision) ∧
    (∀ (p r : ℝ) (n : ℕ) (hv hg f a mg : ℝ) (pm : ℕ), 0 < n → 0 ≤ r →
      simulate_loan_mf_scenarioE p r n hv hg f a mg pm =
        .ok (simulate_loan_mf_scenario p r n hv hg f a mg pm)) := by
  constructor
  · intro p r
    unfold calculate_emiE
    by_cases h0 : r / 100 / 12 = 0
    · rw [if_pos h0]
      unfold pydiv
      rw [if_pos (by norm_num)]
    · rw [if_neg h0]
      have hzp : pyzpow (1 + r / 100 / 12) (-((0 : ℕ) : ℤ)) =
          .ok ((1 + r / 100 / 12) ^ (-((0 : ℕ) : ℤ))) := by
        unfold pyzpow
        rw [if_neg]
        rintro ⟨-, h2⟩
        norm_num at h2
      rw [hzp]
      show pydiv (p * (r / 100 / 12))
        (1 - (1 + r / 100 / 12) ^ (-((0 : ℕ) : ℤ))) = _
      have hone : ((1 : ℝ) + r / 100 / 12) ^ (-((0 : ℕ) : ℤ)) = 1 := by
        norm_num
      rw [hone]
      unfold pydiv
      rw [if_pos (by norm_num)]
  · intro p r n hv hg f a mg pm hn hr
    exact simulateE_eq_ok p r n hv hg f a mg pm hr hn

/-- Witness for **C2 (amended)**: tenure 0 fails with `ZeroDivisionError`
for an arbitrary sample input, and a negative principal with a valid
tenure and rate produces a full successful result. -/
theorem C2_amended_witness :
    calculate_emiE (77 : ℝ) 9 0 = .error .zeroDivision ∧
    ((0 : ℕ) < 12 ∧ (0 : ℝ) ≤ 8) ∧
    simulate_loan_mf_scenarioE (-1) 8 12 2 (5 / 100) 3 4 (14 / 100) 5 =
      .ok (simulate_loan_mf_scenario (-1) 8 12 2 (5 / 100) 3 4
        (14 / 100) 5) :=
  ⟨C2_amended_no_validation.1 77 9, ⟨by norm_num, by norm_num⟩,
   C2_amended_no_validation.2 (-1) 8 12 2 (5 / 100) 3 4 (14 / 100) 5
     (by norm_num) (by norm_num)⟩

end Claims

end HomeLoan
